import Mathlib

/-!
Verification development for the browser-based PDF library manager.

The embedding models the persistent library state manager: the data model
(`Library`, `LibFile`, `Metadata`), the Primary Store and the two Shadow
Backup Store namespaces (`saveLibrary`, `getLibraries`, `deleteLibrary`),
the capability layer (`verifyPermission`, `scanDirectory`) and the
reconciliation and user actions (`restoreLibraryHandles`,
`createLibraryFromDirectory`, `reconnectLibrary`).

Conventions of the embedding:
- timestamps (`new Date().toISOString()`) are passed in as an explicit
  `now : String` parameter;
- capability references (FileSystemDirectoryHandle / FileSystemFileHandle)
  are modelled as opaque tokens (`DirHandle`, a numeric id for files);
  `none` models a null or absent handle in a record;
- the open metadata bag of `types.ts` is a structure of `Option` fields,
  `none` meaning the field is absent from the object;
- JavaScript objects used as string-keyed dictionaries (the IndexedDB
  object store keyed by `id`, the two localStorage backup objects) are
  association lists preserving insertion order, as JS objects do;
- failures of the storage engines are oracles on the state
  (`primaryFails` for IndexedDB, `lsFails` for localStorage); a caught
  exception in the source becomes the corresponding no-op branch.
-/

namespace MedLib

/-- Decidable equality for `Except`, used to evaluate results of the
modelled fallible operations on concrete inputs. -/
def decEqExcept {ε α : Type} [DecidableEq ε] [DecidableEq α] :
    DecidableEq (Except ε α) := fun x y =>
  match x, y with
  | Except.ok a, Except.ok b =>
    if h : a = b then isTrue (by rw [h])
    else isFalse (fun hc => h (Except.ok.inj hc))
  | Except.ok _, Except.error _ => isFalse (fun hc => Except.noConfusion hc)
  | Except.error _, Except.ok _ => isFalse (fun hc => Except.noConfusion hc)
  | Except.error e, Except.error f =>
    if h : e = f then isTrue (by rw [h])
    else isFalse (fun hc => h (Except.error.inj hc))

instance {ε α : Type} [DecidableEq ε] [DecidableEq α] : DecidableEq (Except ε α) :=
  decEqExcept

/-- Sub-record `metadata.persistence` of `types.ts`. -/
structure Persistence where
  lastSaved : Option String := none
  saveCount : Option Nat := none
  backupCreated : Option Bool := none
  localStorageBackup : Option Bool := none
  indexedDBBackup : Option Bool := none
  created : Option String := none
  storageMethod : Option String := none
  backupLayers : Option (List String) := none
deriving Repr, DecidableEq

/-- The open `metadata` bag of `types.ts`, plus the two extra top-level
fields (`backupCreated`, `backupVersion`) written by `createEnhancedBackup`
(the bag is open in TypeScript). -/
structure Metadata where
  fileCount : Option Nat := none
  totalSize : Option Nat := none
  lastModified : Option String := none
  description : Option String := none
  tags : Option (List String) := none
  category : Option String := none
  needsReconnection : Option Bool := none
  hasErrors : Option Bool := none
  errorMessage : Option String := none
  lastReconnected : Option String := none
  lastConnected : Option String := none
  lastRestored : Option String := none
  lastAttemptedRestore : Option String := none
  lastError : Option String := none
  persistence : Option Persistence := none
  restoredFromBackup : Option Bool := none
  restoredFromEnhancedStorage : Option Bool := none
  restoredFromLegacyBackup : Option Bool := none
  backupRestored : Option String := none
  restoreAttemptCount : Option Nat := none
  reconnectionCount : Option Nat := none
  backupCreated : Option String := none
  backupVersion : Option String := none
deriving Repr, DecidableEq

def emptyMeta : Metadata := {}

/-- A directory capability reference: an opaque runtime id plus the
directory name exposed by the handle. -/
structure DirHandle where
  rid : Nat
  name : String
deriving Repr, DecidableEq

/-- `LibraryFile` of `types.ts`; `handle` is the per-file capability
reference (a numeric token; `none` models null/absent). -/
structure LibFile where
  name : String
  handle : Option Nat
  size : Option Nat := none
  lastModified : Option String := none
deriving Repr, DecidableEq

/-- `Library` of `types.ts`. -/
structure Library where
  id : String
  name : String
  files : List LibFile
  directoryHandle : Option DirHandle
  createdAt : Option String := none
  lastAccessed : Option String := none
  metadata : Option Metadata := none
deriving Repr, DecidableEq

/-! ### String-keyed dictionaries (JS objects), insertion ordered -/

def upsert {α : Type} : List (String × α) → String → α → List (String × α)
  | [], k, v => [(k, v)]
  | p :: rest, k, v => if p.1 == k then (k, v) :: rest else p :: upsert rest k v

def lookupStore {α : Type} : List (String × α) → String → Option α
  | [], _ => none
  | p :: rest, k => if p.1 == k then some p.2 else lookupStore rest k

/-- `delete obj[k]` on a JS object. -/
def removeKey {α : Type} (m : List (String × α)) (k : String) : List (String × α) :=
  m.filter (fun p => !(p.1 == k))

/-! ### Storage state

`primary` is the IndexedDB object store (`MedicalLibraryDB.libraries`),
`enhancedBackup` the localStorage object under `PERSISTENCE_KEY`,
`legacyBackup` the localStorage object under `BACKUP_KEY`.
`primaryFails` makes every IndexedDB request fail (open/put/getAll/delete);
`lsFails` makes every localStorage access throw. -/

structure Store where
  primary : List (String × Library)
  enhancedBackup : List (String × Library)
  legacyBackup : List (String × Library)
  primaryFails : Bool := false
  lsFails : Bool := false
deriving Repr

/-- The record built at the top of `saveLibrary` (part_004 lines 186-203):
spread of the input library, `createdAt := createdAt || now`,
`lastAccessed := now`, metadata spread of the INPUT metadata with
`fileCount`, `totalSize`, `lastModified` recomputed and the `persistence`
sub-record rebuilt from scratch (only `saveCount` is carried over). -/
def enhanceLibrary (now : String) (library : Library) : Library :=
  { library with
    createdAt := some (library.createdAt.getD now),
    lastAccessed := some now,
    metadata := some
      { library.metadata.getD emptyMeta with
        fileCount := some library.files.length,
        totalSize := some (library.files.foldl (fun acc f => acc + f.size.getD 0) 0),
        lastModified := some now,
        persistence := some
          { lastSaved := some now,
            saveCount :=
              some (((library.metadata.bind (·.persistence)).bind (·.saveCount)).getD 0 + 1),
            backupCreated := some true,
            localStorageBackup := some true,
            indexedDBBackup := some true } } }

/-- The clean record written to the enhanced backup namespace by
`createEnhancedBackup` (lines 341-356): per-file handles nulled, sizes and
dates defaulted, `directoryHandle` nulled, metadata extended with
`backupCreated` (a date string) and `backupVersion`. -/
def backupDataOf (now : String) (library : Library) : Library :=
  { library with
    files := library.files.map (fun f =>
      { name := f.name
        handle := none
        size := some (f.size.getD 0)
        lastModified := some (f.lastModified.getD now) })
    directoryHandle := none
    metadata := some
      { library.metadata.getD emptyMeta with
        backupCreated := some now
        backupVersion := some "2.0" } }

/-- The record written to the legacy backup namespace by `createBackup`
(lines 405-421): handles stripped, metadata forwarded unchanged. -/
def legacyBackupDataOf (now : String) (library : Library) : Library :=
  { library with
    files := library.files.map (fun f =>
      { name := f.name
        handle := none
        size := some (f.size.getD 0)
        lastModified := some (f.lastModified.getD now) })
    directoryHandle := none }

/-- `createEnhancedBackup` (lines 338-370): writes the cleaned record into
the enhanced namespace and, via `createBackup`, into the legacy namespace.
Both bodies catch every error, so a failing localStorage degrades to a
no-op. -/
def createEnhancedBackupOp (now : String) (library : Library) (s : Store) : Store :=
  if s.lsFails then s
  else
    { s with
      enhancedBackup := upsert s.enhancedBackup library.id (backupDataOf now library)
      legacyBackup := upsert s.legacyBackup library.id (legacyBackupDataOf now library) }

/-- `saveLibrary` (lines 181-244): builds the enhanced record, always
writes the localStorage backups first, then attempts the IndexedDB put
inside a try/catch whose failure is only logged; the function then
resolves. Its own outer catch can only rethrow errors of code outside
these guarded regions, which cannot throw, so the result is always ok. -/
def saveLibrary (now : String) (library : Library) (s : Store) :
    Store × Except String Unit :=
  let enhanced := enhanceLibrary now library
  let s1 := createEnhancedBackupOp now enhanced s
  let s2 :=
    if s1.primaryFails then s1
    else { s1 with primary := upsert s1.primary enhanced.id enhanced }
  (s2, Except.ok ())

/-- `getEnhancedBackupLibraries` (lines 372-392): decorates every enhanced
backup record with `needsReconnection`, `restoredFromBackup`,
`backupRestored`; returns `[]` when localStorage fails (caught). -/
def getEnhancedBackupLibraries (now : String) (s : Store) : List Library :=
  if s.lsFails then []
  else
    s.enhancedBackup.map (fun p =>
      { p.2 with
        directoryHandle := none
        metadata := some
          { p.2.metadata.getD emptyMeta with
            needsReconnection := some true
            restoredFromBackup := some true
            backupRestored := some now } })

/-- `getBackupLibraries` (lines 423-440): legacy namespace reader. -/
def getBackupLibraries (s : Store) : List Library :=
  if s.lsFails then []
  else
    s.legacyBackup.map (fun p =>
      { p.2 with
        directoryHandle := none
        metadata := some
          { p.2.metadata.getD emptyMeta with
            needsReconnection := some true
            restoredFromLegacyBackup := some true } })

/-- The successful IndexedDB `getAll` result with `lastAccessed` stamped
on every record (lines 257-263). -/
def primLibs (now : String) (s : Store) : List Library :=
  s.primary.map (fun p => { p.2 with lastAccessed := some now })

/-- Which storage layers a `getLibraries` call touched. -/
inductive ReadEv
  | primaryRead
  | enhancedRead
  | legacyRead
deriving Repr, DecidableEq

/-- The backup branch of `getLibraries` (lines 280-290): enhanced
namespace first; legacy only when the enhanced read yields no entries. -/
def backupRead (now : String) (s : Store) : List Library × List ReadEv :=
  let bs := getEnhancedBackupLibraries now s
  if 0 < bs.length then (bs, [ReadEv.primaryRead, ReadEv.enhancedRead])
  else (getBackupLibraries s, [ReadEv.primaryRead, ReadEv.enhancedRead, ReadEv.legacyRead])

/-- `getLibraries` (lines 247-297) with its read trace: IndexedDB is tried
first; the backup branch runs when that read fails OR returns zero
records (`if (libraries.length > 0) return libraries`); every failure is
caught, ending in `[]`. -/
def getLibrariesT (now : String) (s : Store) : List Library × List ReadEv :=
  if s.primaryFails then backupRead now s
  else
    let libs := primLibs now s
    if 0 < libs.length then (libs, [ReadEv.primaryRead])
    else backupRead now s

def getLibraries (now : String) (s : Store) : List Library :=
  (getLibrariesT now s).1

/-- `removeEnhancedBackupLibrary` (lines 394-402). -/
def removeEnhancedBackupLibrary (id : String) (s : Store) : Store :=
  if s.lsFails then s
  else { s with enhancedBackup := removeKey s.enhancedBackup id }

/-- `removeBackupLibrary` (lines 442-450). -/
def removeBackupLibrary (id : String) (s : Store) : Store :=
  if s.lsFails then s
  else { s with legacyBackup := removeKey s.legacyBackup id }

/-- `deleteLibrary` (lines 300-335): removes both backup namespace entries
first, then attempts the IndexedDB delete inside a try/catch that swallows
its failure, so the call always resolves. -/
def deleteLibrary (id : String) (s : Store) : Store × Except String Unit :=
  let s1 := removeEnhancedBackupLibrary id s
  let s2 := removeBackupLibrary id s1
  let s3 :=
    if s2.primaryFails then s2
    else { s2 with primary := removeKey s2.primary id }
  (s3, Except.ok ())

/-! ### Capability layer: permission verification and enumeration -/

/-- Outcome of a `queryPermission` / `requestPermission` call: `granted`,
anything not granted (`denied`, covering the denied and prompt states of
the host API), or a thrown exception (`errors`). -/
inductive QueryRes
  | granted
  | denied
  | errors
deriving Repr, DecidableEq

inductive EntryKind
  | file
  | directory
deriving Repr, DecidableEq

/-- One immediate child yielded by `directoryHandle.values()`: its name,
kind, an opaque id for its handle, and the result of `getFile()` — `some
(size, lastModified)` or `none` when the per-entry read throws. -/
structure DirEntry where
  name : String
  kind : EntryKind
  hid : Nat
  read : Option (Nat × String)
deriving Repr, DecidableEq

/-- Live contents of a directory: the entries of its async iterator, and
`failAfter = some k` when the iterator itself throws after yielding `k`
entries (that error is caught and the partial list returned). -/
structure DirContents where
  entries : List DirEntry
  failAfter : Option Nat := none
deriving Repr, DecidableEq

/-- Result of picking a directory via `window.showDirectoryPicker()`. -/
inductive PickerRes
  | picked (h : DirHandle)
  | cancelled
  | failed
deriving Repr, DecidableEq

/-- The host environment an operation runs against: the permission state
of every handle (keyed by handle name and by the request flag, since the
options object differs), the live contents of every directory, the picker
outcome, the clock and the fresh UUID. -/
structure Env where
  queryPerm : String → Bool → QueryRes
  reqPerm : String → Bool → QueryRes
  contents : Nat → DirContents
  picker : PickerRes := PickerRes.cancelled
  now : String
  freshId : String := ""

/-- Session-local state of the `FileHandleManager` singleton together
with its localStorage handle-metadata namespaces: the permission cache,
the `enhanced_file_handles` object, the `file_handles_cache` object. -/
structure Session where
  cache : List (String × Bool)
  enhancedHandles : List (String × String)
  legacyHandles : List (String × String)
  lsFails : Bool := false
deriving Repr

def setCache (ses : Session) (k : String) (b : Bool) : Session :=
  { ses with cache := upsert ses.cache k b }

/-- The cache key of `verifyPermission`: the template string
`name_request` with the boolean rendered as in JavaScript. -/
def cacheKey (hd : DirHandle) (request : Bool) : String :=
  hd.name ++ "_" ++ (if request then "true" else "false")

/-- `FileHandleManager.verifyPermission` (part_004 lines 1026-1053).
Returns (result, updated session, whether a permission prompt was shown).
A cached result short-circuits. `queryPermission` granted caches true;
otherwise, only when `request` is true, `requestPermission` runs (this is
the prompt). Every thrown error is caught, cached as false and returned
as false. -/
def verifyPermission (env : Env) (ses : Session) (hd : DirHandle) (request : Bool) :
    Bool × Session × Bool :=
  match lookupStore ses.cache (cacheKey hd request) with
  | some b => (b, ses, false)
  | none =>
    match env.queryPerm hd.name request with
    | QueryRes.granted => (true, setCache ses (cacheKey hd request) true, false)
    | QueryRes.denied =>
      if request then
        match env.reqPerm hd.name request with
        | QueryRes.granted => (true, setCache ses (cacheKey hd request) true, true)
        | _ => (false, setCache ses (cacheKey hd request) false, true)
      else (false, setCache ses (cacheKey hd request) false, false)
    | QueryRes.errors => (false, setCache ses (cacheKey hd request) false, false)

/-- The fixed enumeration filter of `scanDirectory`:
`entry.kind === 'file' && entry.name.toLowerCase().endsWith('.pdf')`,
spelled over the character list of the name (lower-casing each character,
then comparing the last four against `.pdf`). -/
def isPdfName (n : String) : Bool :=
  (n.data.map Char.toLower).reverse.take 4 == ['f', 'd', 'p', '.']

/-- Per-entry body of the `scanDirectory` loop (lines 999-1014): a
matching entry whose `getFile()` succeeds becomes a `LibraryFile` keeping
its handle; a failing read is caught with a warning and skipped. -/
def processEntry (e : DirEntry) : Option LibFile :=
  match e.kind with
  | EntryKind.file =>
    if isPdfName e.name then
      match e.read with
      | some (sz, lm) =>
        some { name := e.name, handle := some e.hid, size := some sz, lastModified := some lm }
      | none => none
    else none
  | EntryKind.directory => none

/-- `FileHandleManager.scanDirectory` (lines 995-1021): folds the filter
over the iterator; an iterator failure is caught and the partial list
accumulated so far is returned. -/
def scanDirectory (d : DirContents) : List LibFile :=
  (d.entries.take (d.failAfter.getD d.entries.length)).filterMap processEntry

/-! ### Reconciliation: restoreLibraryHandles (enhanced manager) -/

/-- The needs-reconnection marking of `restoreLibraryHandles`
(lines 902-910 and 949-957): files untouched, metadata spread with
`needsReconnection`, `lastAttemptedRestore` and the bumped
`restoreAttemptCount`. -/
def markNeedsReconnection (now : String) (library : Library) : Library :=
  { library with
    metadata := some
      { library.metadata.getD emptyMeta with
        needsReconnection := some true
        lastAttemptedRestore := some now
        restoreAttemptCount :=
          some (((library.metadata.bind (·.restoreAttemptCount)).getD 0) + 1) } }

/-- The restored result of `restoreLibraryHandles` (lines 883-892 and
932-941): files replaced by the rescan, `needsReconnection` cleared,
`lastRestored` stamped, and the provenance flag depending on which
handle-metadata namespace was hit. -/
def markRestored (now : String) (fromEnhanced : Bool) (files : List LibFile)
    (library : Library) : Library :=
  { library with
    files := files
    metadata := some
      (let m :=
        { library.metadata.getD emptyMeta with
          needsReconnection := some false
          lastRestored := some now }
      if fromEnhanced then { m with restoredFromEnhancedStorage := some true }
      else { m with restoredFromBackup := some true }) }

/-- Shared body of the two handle-metadata branches of
`restoreLibraryHandles`: with a live directory handle, verify silently
(`request = false`); on granted, rescan; a non-empty rescan restores,
anything else (denied, caught verification error, empty rescan, absent
handle) marks the library as needing reconnection. -/
def tryRestoreBranch (env : Env) (ses : Session) (fromEnhanced : Bool)
    (library : Library) : Option Library × Session × Bool :=
  match library.directoryHandle with
  | none => (some (markNeedsReconnection env.now library), ses, false)
  | some hd =>
    match verifyPermission env ses hd false with
    | (true, ses2, prompted) =>
      let fs := scanDirectory (env.contents hd.rid)
      if 0 < fs.length then (some (markRestored env.now fromEnhanced fs library), ses2, prompted)
      else (some (markNeedsReconnection env.now library), ses2, prompted)
    | (false, ses2, prompted) => (some (markNeedsReconnection env.now library), ses2, prompted)

/-- `FileHandleManager.restoreLibraryHandles`, enhanced manager
(lines 860-965): the enhanced handle-metadata namespace is checked first,
then the legacy one; with no stored entry the function returns null. The
access-count bookkeeping of `updateHandleAccessCount` does not affect any
claim and is not part of the state. Returns (result, session, prompted). -/
def restoreLibraryHandles (env : Env) (ses : Session) (library : Library) :
    Option Library × Session × Bool :=
  if (lookupStore ses.enhancedHandles library.id).isSome then
    tryRestoreBranch env ses true library
  else if (lookupStore ses.legacyHandles library.id).isSome then
    tryRestoreBranch env ses false library
  else (none, ses, false)

/-! ### Per-library reconciliation step of App.loadLibraries -/

/-- One iteration of the load loop in `App.loadLibraries` (part_000 lines
42-75): the restore result is kept and re-saved; a null result keeps the
library marked as needing reconnection. The catch branch of that loop
(lines 62-74, stamping `hasErrors`, `errorMessage`, `lastError`) would run
only if `restoreLibraryHandles` or `saveLibrary` rejected; both are total
here — `restoreLibraryHandles` catches internally and `saveLibrary`
always resolves — so the branch is unreachable and has no arm. -/
def reconcileOne (env : Env) (ses : Session) (s : Store) (lib : Library) :
    Library × Session × Store :=
  match restoreLibraryHandles env ses lib with
  | (some r, ses2, _) => (r, ses2, (saveLibrary env.now r s).1)
  | (none, ses2, _) =>
    ({ lib with
        metadata := some
          { lib.metadata.getD emptyMeta with
            needsReconnection := some true
            lastAttemptedRestore := some env.now } },
      ses2, s)

/-! ### User actions: create and reconnect -/

/-- Typed rendering of the errors thrown by `createLibraryFromDirectory`
and `reconnectLibrary`: the Error of a failed permission elevation, the
Error thrown on an empty scan (`No PDF files found in selected
directory`), and a non-abort picker failure. All three have a name other
than AbortError and are rethrown to the caller. -/
inductive CreateErr
  | permissionDenied
  | noPdfFiles
  | pickerError
deriving Repr, DecidableEq

/-- `storeDirectoryHandle` (part_004 lines 820-854): records the handle
name metadata under the library id in both localStorage namespaces; a
localStorage failure is caught and degrades to a no-op. -/
def storeDirectoryHandle (libraryId : String) (hd : DirHandle) (ses : Session) : Session :=
  if ses.lsFails then ses
  else
    { ses with
      enhancedHandles := upsert ses.enhancedHandles libraryId hd.name
      legacyHandles := upsert ses.legacyHandles libraryId hd.name }

/-- The new library record built by `createLibraryFromDirectory`
(lines 1073-1095). -/
def mkNewLibrary (env : Env) (hd : DirHandle) (files : List LibFile) : Library :=
  { id := env.freshId
    name := hd.name
    files := files
    directoryHandle := some hd
    createdAt := some env.now
    lastAccessed := some env.now
    metadata := some
      { fileCount := some files.length
        totalSize := some (files.foldl (fun acc f => acc + f.size.getD 0) 0)
        lastModified := some env.now
        description := some ("Library created from " ++ hd.name)
        tags := some ["medical", "pdf"]
        category := some "medical_documents"
        needsReconnection := some false
        lastConnected := some env.now
        persistence := some
          { created := some env.now
            storageMethod := some "enhanced"
            backupLayers := some ["localStorage", "indexedDB"] } } }

/-- `FileHandleManager.createLibraryFromDirectory`, enhanced manager
(lines 1059-1108): pick a directory (AbortError is caught and returns
null), verify with elevation, scan, reject an empty scan, build the
record and only then store the handle metadata. -/
def createLibraryFromDirectory (env : Env) (ses : Session) :
    Except CreateErr (Option Library) × Session :=
  match env.picker with
  | PickerRes.cancelled => (Except.ok none, ses)
  | PickerRes.failed => (Except.error CreateErr.pickerError, ses)
  | PickerRes.picked hd =>
    match verifyPermission env ses hd true with
    | (false, ses2, _) => (Except.error CreateErr.permissionDenied, ses2)
    | (true, ses2, _) =>
      let files := scanDirectory (env.contents hd.rid)
      if files.length = 0 then (Except.error CreateErr.noPdfFiles, ses2)
      else
        let lib := mkNewLibrary env hd files
        (Except.ok (some lib), storeDirectoryHandle lib.id hd ses2)

/-- The reconnected record built by `reconnectLibrary` (lines 1129-1144):
spread of the stored library with the fresh files and handle, counts
recomputed, `needsReconnection` cleared and the reconnection counter
bumped. -/
def mkReconnected (env : Env) (hd : DirHandle) (files : List LibFile)
    (library : Library) : Library :=
  { library with
    files := files
    directoryHandle := some hd
    lastAccessed := some env.now
    metadata := some
      { library.metadata.getD emptyMeta with
        fileCount := some files.length
        totalSize := some (files.foldl (fun acc f => acc + f.size.getD 0) 0)
        lastModified := some env.now
        needsReconnection := some false
        lastConnected := some env.now
        lastReconnected := some env.now
        reconnectionCount :=
          some (((library.metadata.bind (·.reconnectionCount)).getD 0) + 1) }  }

/-- `FileHandleManager.reconnectLibrary`, enhanced manager
(lines 1113-1158): same shape as creation, but rebuilding the existing
record; the input record itself is never mutated. -/
def reconnectLibrary (env : Env) (ses : Session) (library : Library) :
    Except CreateErr (Option Library) × Session :=
  match env.picker with
  | PickerRes.cancelled => (Except.ok none, ses)
  | PickerRes.failed => (Except.error CreateErr.pickerError, ses)
  | PickerRes.picked hd =>
    match verifyPermission env ses hd true with
    | (false, ses2, _) => (Except.error CreateErr.permissionDenied, ses2)
    | (true, ses2, _) =>
      let files := scanDirectory (env.contents hd.rid)
      if files.length = 0 then (Except.error CreateErr.noPdfFiles, ses2)
      else
        let lib := mkReconnected env hd files library
        (Except.ok (some lib), storeDirectoryHandle library.id hd ses2)

/-- `App.handleAddLibrary` (part_000 lines 121-142): persists the new
library only when creation returned one; a cancellation or a thrown error
leaves the store untouched (the error is only alerted). -/
def handleAddLibrary (env : Env) (ses : Session) (s : Store) :
    Session × Store × Option Library :=
  match createLibraryFromDirectory env ses with
  | (Except.ok (some lib), ses2) => (ses2, (saveLibrary env.now lib s).1, some lib)
  | (Except.ok none, ses2) => (ses2, s, none)
  | (Except.error _, ses2) => (ses2, s, none)

/-- `App.handleReconnectLibrary` (part_000 lines 144-172): persists and
swaps in the reconnected record only on success; cancellation and errors
leave both the store and the in-memory library list untouched. -/
def handleReconnectLibrary (env : Env) (ses : Session) (s : Store)
    (libs : List Library) (library : Library) : Session × Store × List Library :=
  match reconnectLibrary env ses library with
  | (Except.ok (some r), ses2) =>
    (ses2, (saveLibrary env.now r s).1, libs.map (fun l => if l.id == library.id then r else l))
  | (Except.ok none, ses2) => (ses2, s, libs)
  | (Except.error _, ses2) => (ses2, s, libs)

/-! ### Field accessors (a `none` metadata object has every field absent) -/

def Library.mNeedsReconnection (l : Library) : Option Bool :=
  l.metadata.bind (·.needsReconnection)

def Library.mHasErrors (l : Library) : Option Bool :=
  l.metadata.bind (·.hasErrors)

def Library.mFileCount (l : Library) : Option Nat :=
  l.metadata.bind (·.fileCount)

def Library.mDescription (l : Library) : Option String :=
  l.metadata.bind (·.description)

def Library.mPersistence (l : Library) : Option Persistence :=
  l.metadata.bind (·.persistence)

def optNeedsRec (o : Option Library) : Option Bool :=
  o.bind Library.mNeedsReconnection

def optHasErrors (o : Option Library) : Option Bool :=
  o.bind Library.mHasErrors

def optFiles (o : Option Library) : Option (List LibFile) :=
  o.map Library.files

/-! ### Concrete sample inputs used by witnesses and counterexamples -/

/-- An empty, healthy storage state. -/
def s0 : Store := { primary := [], enhancedBackup := [], legacyBackup := [] }

def hdlA : DirHandle := { rid := 1, name := "docsA" }

def fileOld : LibFile :=
  { name := "old.pdf", handle := some 9, size := some 5, lastModified := some "t0" }

/-- A stored library holding live capability references. -/
def libA : Library :=
  { id := "L1", name := "Docs", files := [fileOld], directoryHandle := some hdlA,
    createdAt := some "t0", lastAccessed := some "t0", metadata := some {} }

/-- A session whose enhanced handle-metadata namespace knows `libA`. -/
def sesA : Session :=
  { cache := [], enhancedHandles := [("L1", "docsA")], legacyHandles := [] }

/-- A host whose permission queries always come back denied and whose
directories are all empty. -/
def envDenied : Env :=
  { queryPerm := fun _ _ => QueryRes.denied
    reqPerm := fun _ _ => QueryRes.denied
    contents := fun _ => { entries := [] }
    now := "t1"
    freshId := "F1" }

/-- A host whose permission queries always throw. -/
def envThrows : Env :=
  { queryPerm := fun _ _ => QueryRes.errors
    reqPerm := fun _ _ => QueryRes.errors
    contents := fun _ => { entries := [] }
    now := "t1"
    freshId := "F1" }

/-- A host that grants every permission silently. -/
def envGranted : Env :=
  { queryPerm := fun _ _ => QueryRes.granted
    reqPerm := fun _ _ => QueryRes.granted
    contents := fun _ => { entries := [] }
    now := "t1"
    freshId := "F1" }

/-- The directory of the C9 scenario: `a.pdf`, `b.pdf`, and one entry
whose per-entry read throws. -/
def dirC9 : DirContents :=
  { entries :=
      [ { name := "a.pdf", kind := EntryKind.file, hid := 11, read := some (100, "ta") },
        { name := "b.pdf", kind := EntryKind.file, hid := 12, read := some (200, "tb") },
        { name := "bad.pdf", kind := EntryKind.file, hid := 13, read := none } ] }

/-- A host for the creation scenarios: picker returns a directory handle
whose contents are `dirC9`, permissions granted. -/
def envC9 : Env :=
  { queryPerm := fun _ _ => QueryRes.granted
    reqPerm := fun _ _ => QueryRes.granted
    contents := fun r => if r = 2 then dirC9 else { entries := [] }
    picker := PickerRes.picked { rid := 2, name := "Notes" }
    now := "t1"
    freshId := "F1" }

/-- A host for the empty-directory scenarios: picker returns a directory
with no PDF entries, permissions granted. -/
def envEmptyDir : Env :=
  { queryPerm := fun _ _ => QueryRes.granted
    reqPerm := fun _ _ => QueryRes.granted
    contents := fun _ => { entries := [ { name := "notes.txt", kind := EntryKind.file, hid := 21, read := some (5, "tc") } ] }
    picker := PickerRes.picked { rid := 3, name := "Empty" }
    now := "t2"
    freshId := "F2" }

/-- A fresh session with nothing cached or stored. -/
def ses0 : Session := { cache := [], enhancedHandles := [], legacyHandles := [] }

/-- A library waiting for reconnection, as stored after a failed restore. -/
def libNeedsRec : Library :=
  { id := "L2", name := "Shelf", files := [fileOld], directoryHandle := none,
    createdAt := some "t0", lastAccessed := some "t0",
    metadata := some { needsReconnection := some true } }

/-- First save of the double-save scenario: carries a description. -/
def libFirst : Library :=
  { id := "L", name := "N", files := [], directoryHandle := none,
    metadata := some { description := some "keep" } }

/-- Second save of the double-save scenario: same id, description omitted. -/
def libSecond : Library :=
  { id := "L", name := "N", files := [], directoryHandle := none, metadata := none }

def libBkA : Library := { id := "A", name := "A", files := [], directoryHandle := none }

def libBkB : Library := { id := "B", name := "B", files := [], directoryHandle := none }

/-- A healthy store whose primary is empty while the two backup
namespaces hold one library each. -/
def sBk : Store :=
  { primary := [], enhancedBackup := [("A", libBkA)], legacyBackup := [("B", libBkB)] }

/-- Same contents with the primary store failing. -/
def sBkF : Store := { sBk with primaryFails := true }

/-- A store holding library `X` in every layer. -/
def sDel0 : Store :=
  { primary := [("X", libBkA)], enhancedBackup := [("X", libBkA)],
    legacyBackup := [("X", libBkA)] }

/-- A directory whose iterator throws after yielding one readable PDF:
the scan returns the non-empty partial list. -/
def dirPartial : DirContents :=
  { entries :=
      [ { name := "a.pdf", kind := EntryKind.file, hid := 31, read := some (10, "tp") },
        { name := "b.pdf", kind := EntryKind.file, hid := 32, read := some (20, "tq") } ],
    failAfter := some 1 }

/-- A host granting permissions whose directories all behave like
`dirPartial`. -/
def envPartial : Env :=
  { queryPerm := fun _ _ => QueryRes.granted
    reqPerm := fun _ _ => QueryRes.granted
    contents := fun _ => dirPartial
    now := "t4"
    freshId := "F4" }

/-! ## Helper lemmas -/

theorem lookupStore_upsert_self {α : Type} (m : List (String × α)) (k : String) (v : α) :
    lookupStore (upsert m k v) k = some v := by
  induction m with
  | nil => simp [upsert, lookupStore]
  | cons p rest ih =>
    by_cases h : p.1 = k
    · simp [upsert, lookupStore, h]
    · simp [upsert, lookupStore, h, ih]

theorem lookupStore_removeKey_self {α : Type} (m : List (String × α)) (k : String) :
    lookupStore (removeKey m k) k = none := by
  induction m with
  | nil => simp [removeKey, lookupStore]
  | cons p rest ih =>
    by_cases h : p.1 = k
    · simpa [removeKey, lookupStore, h] using ih
    · simpa [removeKey, lookupStore, h] using ih

/-- A verification call with `request = false` never reaches
`requestPermission`, hence never prompts. -/
theorem verifyPermission_silent (env : Env) (ses : Session) (hd : DirHandle) :
    (verifyPermission env ses hd false).2.2 = false := by
  unfold verifyPermission
  cases h : lookupStore ses.cache (cacheKey hd false) with
  | some b => rfl
  | none => cases hq : env.queryPerm hd.name false <;> simp

/-- Verification only touches the permission cache, never the two
handle-metadata namespaces. -/
theorem verifyPermission_handles (env : Env) (ses : Session) (hd : DirHandle) (r : Bool) :
    (verifyPermission env ses hd r).2.1.enhancedHandles = ses.enhancedHandles ∧
    (verifyPermission env ses hd r).2.1.legacyHandles = ses.legacyHandles := by
  unfold verifyPermission
  cases h : lookupStore ses.cache (cacheKey hd r) with
  | some b => exact ⟨rfl, rfl⟩
  | none =>
    cases hq : env.queryPerm hd.name r
    · exact ⟨rfl, rfl⟩
    · cases r
      · exact ⟨rfl, rfl⟩
      · cases hr : env.reqPerm hd.name true <;> exact ⟨rfl, rfl⟩
    · exact ⟨rfl, rfl⟩

theorem markRestored_mHasErrors (now : String) (b : Bool) (fs : List LibFile) (l : Library) :
    (markRestored now b fs l).mHasErrors = l.mHasErrors := by
  cases b <;> cases h : l.metadata <;>
    simp [markRestored, Library.mHasErrors, emptyMeta, h]

theorem markNeedsReconnection_mHasErrors (now : String) (l : Library) :
    (markNeedsReconnection now l).mHasErrors = l.mHasErrors := by
  cases h : l.metadata <;>
    simp [markNeedsReconnection, Library.mHasErrors, emptyMeta, h]

/-- Both failure shapes of the restore branch — verification not granted,
or granted with an empty rescan — yield the needs-reconnection marking
with the stored files untouched and no prompt. -/
theorem tryRestoreBranch_fail (env : Env) (ses : Session) (b : Bool) (lib : Library)
    (hd : DirHandle) (hhd : lib.directoryHandle = some hd)
    (hfail : (verifyPermission env ses hd false).1 = false ∨
      ((verifyPermission env ses hd false).1 = true ∧
        scanDirectory (env.contents hd.rid) = [])) :
    optNeedsRec (tryRestoreBranch env ses b lib).1 = some true ∧
    optFiles (tryRestoreBranch env ses b lib).1 = some lib.files ∧
    (tryRestoreBranch env ses b lib).2.2 = false := by
  have hsil := verifyPermission_silent env ses hd
  rcases hv : verifyPermission env ses hd false with ⟨res, ses2, p⟩
  rw [hv] at hsil hfail
  simp only at hsil
  subst hsil
  rcases hfail with hden | ⟨hok, hscan⟩
  · simp only at hden
    subst hden
    simp [tryRestoreBranch, hhd, hv, optNeedsRec, optFiles, markNeedsReconnection,
      Library.mNeedsReconnection]
  · simp only at hok
    subst hok
    simp [tryRestoreBranch, hhd, hv, hscan, optNeedsRec, optFiles, markNeedsReconnection,
      Library.mNeedsReconnection]

/-- Lifting of `tryRestoreBranch_fail` through the namespace dispatch of
`restoreLibraryHandles`. -/
theorem restore_fail_marks (env : Env) (ses : Session) (lib : Library) (hd : DirHandle)
    (hhd : lib.directoryHandle = some hd)
    (hstored : (lookupStore ses.enhancedHandles lib.id).isSome = true ∨
      (lookupStore ses.legacyHandles lib.id).isSome = true)
    (hfail : (verifyPermission env ses hd false).1 = false ∨
      ((verifyPermission env ses hd false).1 = true ∧
        scanDirectory (env.contents hd.rid) = [])) :
    optNeedsRec (restoreLibraryHandles env ses lib).1 = some true ∧
    optFiles (restoreLibraryHandles env ses lib).1 = some lib.files ∧
    (restoreLibraryHandles env ses lib).2.2 = false := by
  by_cases h1 : (lookupStore ses.enhancedHandles lib.id).isSome
  · simpa [restoreLibraryHandles, h1] using tryRestoreBranch_fail env ses true lib hd hhd hfail
  · have h2 : (lookupStore ses.legacyHandles lib.id).isSome = true := by
      rcases hstored with h | h
      · exact absurd h h1
      · exact h
    simpa [restoreLibraryHandles, h1, h2] using
      tryRestoreBranch_fail env ses false lib hd hhd hfail

theorem tryRestoreBranch_some_mHasErrors (env : Env) (ses : Session) (b : Bool)
    (lib r : Library) (ses2 : Session) (p : Bool)
    (h : tryRestoreBranch env ses b lib = (some r, ses2, p)) :
    r.mHasErrors = lib.mHasErrors := by
  unfold tryRestoreBranch at h
  split at h
  · cases h
    exact markNeedsReconnection_mHasErrors env.now lib
  · split at h
    · simp only at h
      split at h
      · cases h
        exact markRestored_mHasErrors env.now b _ lib
      · cases h
        exact markNeedsReconnection_mHasErrors env.now lib
    · cases h
      exact markNeedsReconnection_mHasErrors env.now lib

/-- Every non-null restore result carries the input library's `hasErrors`
field unchanged: the restore path never annotates an error. -/
theorem restore_some_mHasErrors (env : Env) (ses : Session) (lib r : Library)
    (ses2 : Session) (p : Bool)
    (h : restoreLibraryHandles env ses lib = (some r, ses2, p)) :
    r.mHasErrors = lib.mHasErrors := by
  unfold restoreLibraryHandles at h
  split at h
  · exact tryRestoreBranch_some_mHasErrors env ses true lib r ses2 p h
  · split at h
    · exact tryRestoreBranch_some_mHasErrors env ses false lib r ses2 p h
    · simp at h

/-- The per-library load step never annotates `hasErrors`: the Errored
branch of `App.loadLibraries` is unreachable from verification or
enumeration failures. -/
theorem reconcileOne_mHasErrors (env : Env) (ses : Session) (s : Store) (lib : Library) :
    ((reconcileOne env ses s lib).1).mHasErrors = lib.mHasErrors := by
  unfold reconcileOne
  rcases hr : restoreLibraryHandles env ses lib with ⟨or, ses2, p⟩
  cases or with
  | some r =>
    simp only
    exact restore_some_mHasErrors env ses lib r ses2 p hr
  | none =>
    simp only
    cases h : lib.metadata <;> simp [Library.mHasErrors, emptyMeta, h]

theorem processEntry_eq_some (e : DirEntry) (lf : LibFile) :
    processEntry e = some lf ↔
      (e.kind = EntryKind.file ∧ isPdfName e.name = true ∧
        ∃ sz lm, e.read = some (sz, lm) ∧
          lf = { name := e.name, handle := some e.hid, size := some sz,
                 lastModified := some lm }) := by
  rcases e with ⟨nm, k, hid, rd⟩
  cases k with
  | file =>
    by_cases hp : isPdfName nm
    · cases rd with
      | none => simp [processEntry, hp]
      | some pr =>
        rcases pr with ⟨sz0, lm0⟩
        simp only [processEntry, hp, if_true, Option.some.injEq, true_and]
        refine ⟨fun h => ⟨sz0, lm0, by simp, by rw [h]⟩, ?_⟩
        rintro ⟨sz, lm, hread, h⟩
        simp only [Option.some.injEq, Prod.mk.injEq] at hread
        rw [h, hread.1, hread.2]
    · simp [processEntry, hp]
  | directory => simp [processEntry]

/-- Membership in a full scan (no iterator failure): exactly the
file-kind, `.pdf`-named, readable entries survive. -/
theorem scanDirectory_mem (d : DirContents) (hfa : d.failAfter = none) (lf : LibFile) :
    lf ∈ scanDirectory d ↔
      ∃ e ∈ d.entries, e.kind = EntryKind.file ∧ isPdfName e.name = true ∧
        ∃ sz lm, e.read = some (sz, lm) ∧
          lf = { name := e.name, handle := some e.hid, size := some sz,
                 lastModified := some lm } := by
  simp [scanDirectory, hfa, List.mem_filterMap, processEntry_eq_some]

theorem enhancedRead_mem_backupRead (now : String) (s : Store) :
    ReadEv.enhancedRead ∈ (backupRead now s).2 := by
  simp only [backupRead]
  split <;> simp

/-- The backup branch of `getLibraries` runs exactly when the primary
read fails or yields no record. -/
theorem enhancedRead_mem_iff (now : String) (s : Store) :
    ReadEv.enhancedRead ∈ (getLibrariesT now s).2 ↔
      (s.primaryFails = true ∨ s.primary = []) := by
  by_cases hf : s.primaryFails = true
  · have ht : getLibrariesT now s = backupRead now s := by simp [getLibrariesT, hf]
    rw [ht]
    exact ⟨fun _ => Or.inl hf, fun _ => enhancedRead_mem_backupRead now s⟩
  · by_cases hp : s.primary = []
    · have ht : getLibrariesT now s = backupRead now s := by
        simp [getLibrariesT, hf, primLibs, hp]
      rw [ht]
      exact ⟨fun _ => Or.inr hp, fun _ => enhancedRead_mem_backupRead now s⟩
    · have hlen : 0 < (primLibs now s).length := by
        simp [primLibs, List.length_pos, hp]
      have ht : getLibrariesT now s = (primLibs now s, [ReadEv.primaryRead]) := by
        simp [getLibrariesT, hf, hlen]
      rw [ht]
      constructor
      · intro hm
        simp at hm
      · rintro (h | h)
        · exact absurd h hf
        · exact absurd h hp

theorem enhanceLibrary_id (now : String) (lib : Library) :
    (enhanceLibrary now lib).id = lib.id := rfl

theorem createEnhancedBackupOp_primary (now : String) (l : Library) (s : Store) :
    (createEnhancedBackupOp now l s).primary = s.primary := by
  unfold createEnhancedBackupOp
  split <;> rfl

theorem createEnhancedBackupOp_primaryFails (now : String) (l : Library) (s : Store) :
    (createEnhancedBackupOp now l s).primaryFails = s.primaryFails := by
  unfold createEnhancedBackupOp
  split <;> rfl

theorem createEnhancedBackupOp_lsFails (now : String) (l : Library) (s : Store) :
    (createEnhancedBackupOp now l s).lsFails = s.lsFails := by
  unfold createEnhancedBackupOp
  split <;> rfl

theorem createEnhancedBackupOp_enhanced (now : String) (l : Library) (s : Store)
    (hls : s.lsFails = false) :
    (createEnhancedBackupOp now l s).enhancedBackup =
      upsert s.enhancedBackup l.id (backupDataOf now l) := by
  simp [createEnhancedBackupOp, hls]

theorem createEnhancedBackupOp_legacy (now : String) (l : Library) (s : Store)
    (hls : s.lsFails = false) :
    (createEnhancedBackupOp now l s).legacyBackup =
      upsert s.legacyBackup l.id (legacyBackupDataOf now l) := by
  simp [createEnhancedBackupOp, hls]

theorem saveLibrary_fst (now : String) (lib : Library) (s : Store) :
    (saveLibrary now lib s).1 =
      (if (createEnhancedBackupOp now (enhanceLibrary now lib) s).primaryFails
        then createEnhancedBackupOp now (enhanceLibrary now lib) s
        else { createEnhancedBackupOp now (enhanceLibrary now lib) s with
          primary := upsert (createEnhancedBackupOp now (enhanceLibrary now lib) s).primary
            (enhanceLibrary now lib).id (enhanceLibrary now lib) }) := rfl

theorem saveLibrary_snd (now : String) (lib : Library) (s : Store) :
    (saveLibrary now lib s).2 = Except.ok () := rfl

theorem saveLibrary_primaryFails (now : String) (lib : Library) (s : Store) :
    ((saveLibrary now lib s).1).primaryFails = s.primaryFails := by
  rw [saveLibrary_fst]
  split <;> simp [createEnhancedBackupOp_primaryFails]

theorem saveLibrary_primary (now : String) (lib : Library) (s : Store)
    (hp : s.primaryFails = false) :
    ((saveLibrary now lib s).1).primary =
      upsert s.primary lib.id (enhanceLibrary now lib) := by
  rw [saveLibrary_fst]
  rw [if_neg (by rw [createEnhancedBackupOp_primaryFails, hp]; exact Bool.false_ne_true)]
  simp [createEnhancedBackupOp_primary, enhanceLibrary_id]

theorem saveLibrary_primary_failed (now : String) (lib : Library) (s : Store)
    (hp : s.primaryFails = true) :
    ((saveLibrary now lib s).1).primary = s.primary := by
  rw [saveLibrary_fst]
  rw [if_pos (by rw [createEnhancedBackupOp_primaryFails, hp])]
  exact createEnhancedBackupOp_primary now _ s

theorem saveLibrary_enhanced (now : String) (lib : Library) (s : Store)
    (hls : s.lsFails = false) :
    ((saveLibrary now lib s).1).enhancedBackup =
      upsert s.enhancedBackup lib.id (backupDataOf now (enhanceLibrary now lib)) := by
  rw [saveLibrary_fst]
  split <;> simp [createEnhancedBackupOp_enhanced now _ s hls, enhanceLibrary_id]

theorem saveLibrary_legacy (now : String) (lib : Library) (s : Store)
    (hls : s.lsFails = false) :
    ((saveLibrary now lib s).1).legacyBackup =
      upsert s.legacyBackup lib.id (legacyBackupDataOf now (enhanceLibrary now lib)) := by
  rw [saveLibrary_fst]
  split <;> simp [createEnhancedBackupOp_legacy now _ s hls, enhanceLibrary_id]

theorem saveLibrary_enhanced_lsFailed (now : String) (lib : Library) (s : Store)
    (hls : s.lsFails = true) :
    ((saveLibrary now lib s).1).enhancedBackup = s.enhancedBackup := by
  rw [saveLibrary_fst]
  have h : createEnhancedBackupOp now (enhanceLibrary now lib) s = s := by
    simp [createEnhancedBackupOp, hls]
  rw [h]
  split <;> rfl

theorem saveLibrary_legacy_lsFailed (now : String) (lib : Library) (s : Store)
    (hls : s.lsFails = true) :
    ((saveLibrary now lib s).1).legacyBackup = s.legacyBackup := by
  rw [saveLibrary_fst]
  have h : createEnhancedBackupOp now (enhanceLibrary now lib) s = s := by
    simp [createEnhancedBackupOp, hls]
  rw [h]
  split <;> rfl

theorem enhanceLibrary_mDescription (now : String) (lib : Library) :
    (enhanceLibrary now lib).mDescription = lib.mDescription := by
  cases h : lib.metadata <;>
    simp [enhanceLibrary, Library.mDescription, emptyMeta, h]

theorem enhanceLibrary_mPersistence (now : String) (lib : Library) :
    (enhanceLibrary now lib).mPersistence = some
      { lastSaved := some now
        saveCount := some (((lib.metadata.bind (·.persistence)).bind (·.saveCount)).getD 0 + 1)
        backupCreated := some true
        localStorageBackup := some true
        indexedDBBackup := some true } := rfl

/-- The enhanced backup reader never errors and treats the absent handle
as expected: every record it returns has `directoryHandle` repopulated as
null and `needsReconnection` set. -/
theorem getEnhancedBackupLibraries_reader (now : String) (s : Store) (l : Library)
    (hl : l ∈ getEnhancedBackupLibraries now s) :
    l.directoryHandle = none ∧ l.mNeedsReconnection = some true := by
  unfold getEnhancedBackupLibraries at hl
  split at hl
  · simp at hl
  · rcases List.mem_map.1 hl with ⟨p, _, rfl⟩
    exact ⟨rfl, rfl⟩

/-- Same for the legacy backup reader. -/
theorem getBackupLibraries_reader (s : Store) (l : Library)
    (hl : l ∈ getBackupLibraries s) :
    l.directoryHandle = none ∧ l.mNeedsReconnection = some true := by
  unfold getBackupLibraries at hl
  split at hl
  · simp at hl
  · rcases List.mem_map.1 hl with ⟨p, _, rfl⟩
    exact ⟨rfl, rfl⟩

theorem markRestored_files (now : String) (b : Bool) (fs : List LibFile) (l : Library) :
    (markRestored now b fs l).files = fs := rfl

theorem markRestored_mNeedsReconnection (now : String) (b : Bool) (fs : List LibFile)
    (l : Library) :
    (markRestored now b fs l).mNeedsReconnection = some false := by
  cases b <;> cases h : l.metadata <;>
    simp [markRestored, Library.mNeedsReconnection, emptyMeta, h]

/-- Granted verification with a non-empty scan restores: files replaced
by the scan result, `needsReconnection` cleared, `hasErrors` untouched. -/
theorem tryRestoreBranch_restored (env : Env) (ses : Session) (b : Bool) (lib : Library)
    (hd : DirHandle)
    (hhd : lib.directoryHandle = some hd)
    (hok : (verifyPermission env ses hd false).1 = true)
    (hne : scanDirectory (env.contents hd.rid) ≠ []) :
    optNeedsRec (tryRestoreBranch env ses b lib).1 = some false ∧
    optFiles (tryRestoreBranch env ses b lib).1 = some (scanDirectory (env.contents hd.rid)) ∧
    optHasErrors (tryRestoreBranch env ses b lib).1 = lib.mHasErrors := by
  rcases hv : verifyPermission env ses hd false with ⟨res, ses2, p⟩
  rw [hv] at hok
  simp only at hok
  subst hok
  have hlen : 0 < (scanDirectory (env.contents hd.rid)).length := List.length_pos.mpr hne
  simp [tryRestoreBranch, hhd, hv, hlen, optNeedsRec, optFiles, optHasErrors,
    markRestored_mNeedsReconnection, markRestored_files, markRestored_mHasErrors]

/-- Lifting of `tryRestoreBranch_restored` through the enhanced
handle-metadata branch of `restoreLibraryHandles`. -/
theorem restore_restored (env : Env) (ses : Session) (lib : Library) (hd : DirHandle)
    (hhd : lib.directoryHandle = some hd)
    (hstored : (lookupStore ses.enhancedHandles lib.id).isSome = true)
    (hok : (verifyPermission env ses hd false).1 = true)
    (hne : scanDirectory (env.contents hd.rid) ≠ []) :
    optNeedsRec (restoreLibraryHandles env ses lib).1 = some false ∧
    optFiles (restoreLibraryHandles env ses lib).1 = some (scanDirectory (env.contents hd.rid)) ∧
    optHasErrors (restoreLibraryHandles env ses lib).1 = lib.mHasErrors := by
  simpa [restoreLibraryHandles, hstored] using
    tryRestoreBranch_restored env ses true lib hd hhd hok hne

/-- On the failure shapes of `restore_fail_marks` the result also keeps
the input library's `hasErrors` field untouched. -/
theorem restore_fail_hasErrors (env : Env) (ses : Session) (lib : Library) (hd : DirHandle)
    (hhd : lib.directoryHandle = some hd)
    (hstored : (lookupStore ses.enhancedHandles lib.id).isSome = true ∨
      (lookupStore ses.legacyHandles lib.id).isSome = true)
    (hfail : (verifyPermission env ses hd false).1 = false ∨
      ((verifyPermission env ses hd false).1 = true ∧
        scanDirectory (env.contents hd.rid) = [])) :
    optHasErrors (restoreLibraryHandles env ses lib).1 = lib.mHasErrors := by
  have hmarks := restore_fail_marks env ses lib hd hhd hstored hfail
  rcases hres : restoreLibraryHandles env ses lib with ⟨or, ses2, p⟩
  rw [hres] at hmarks
  cases or with
  | none => simp [optNeedsRec] at hmarks
  | some r =>
    show r.mHasErrors = lib.mHasErrors
    exact restore_some_mHasErrors env ses lib r ses2 p hres

/-! ## Claims -/

/-- C1, counterexample: the claim says every persistence path strips
capability references before writing. At a concrete library holding a
directory handle and a per-file handle, the record written by
`saveLibrary` into the Primary Store still contains both: the directory
handle and the file handle of `fileOld` survive the put unchanged. -/
theorem c1_primary_put_keeps_handles :
    (lookupStore ((saveLibrary "t1" libA s0).1).primary "L1").map Library.directoryHandle
      = some (some hdlA) ∧
    (lookupStore ((saveLibrary "t1" libA s0).1).primary "L1").map Library.files
      = some [fileOld] ∧
    fileOld.handle = some 9 :=
  ⟨by decide, by decide, rfl⟩

/-- C1, amended: both Shadow Backup Store namespaces strip the directory
handle and every per-file handle before writing, and their readers treat
the absence as expected, never as an error: every record either reader
returns has `directoryHandle` repopulated as null and `needsReconnection`
set. But the Primary Store put does not strip anything: it writes the
enhanced record with `directoryHandle` and per-file handles exactly as
they are in the in-memory library. -/
theorem c1_backup_strip_primary_no_strip (now : String) (lib : Library) (s : Store)
    (hls : s.lsFails = false) (hp : s.primaryFails = false) :
    (∀ rec, lookupStore ((saveLibrary now lib s).1).enhancedBackup lib.id = some rec →
      rec.directoryHandle = none ∧ ∀ f ∈ rec.files, f.handle = none) ∧
    (∀ rec, lookupStore ((saveLibrary now lib s).1).legacyBackup lib.id = some rec →
      rec.directoryHandle = none ∧ ∀ f ∈ rec.files, f.handle = none) ∧
    (∀ (now2 : String) (s2 : Store) (l : Library),
      l ∈ getEnhancedBackupLibraries now2 s2 →
      l.directoryHandle = none ∧ l.mNeedsReconnection = some true) ∧
    (∀ (s2 : Store) (l : Library), l ∈ getBackupLibraries s2 →
      l.directoryHandle = none ∧ l.mNeedsReconnection = some true) ∧
    lookupStore ((saveLibrary now lib s).1).primary lib.id = some (enhanceLibrary now lib) ∧
    (enhanceLibrary now lib).directoryHandle = lib.directoryHandle ∧
    (enhanceLibrary now lib).files = lib.files := by
  refine ⟨?_, ?_,
    fun now2 s2 l hl => getEnhancedBackupLibraries_reader now2 s2 l hl,
    fun s2 l hl => getBackupLibraries_reader s2 l hl, ?_, rfl, rfl⟩
  · intro rec hrec
    rw [saveLibrary_enhanced now lib s hls, lookupStore_upsert_self] at hrec
    cases hrec
    refine ⟨rfl, ?_⟩
    intro f hf
    rcases List.mem_map.1 hf with ⟨g, _, rfl⟩
    rfl
  · intro rec hrec
    rw [saveLibrary_legacy now lib s hls, lookupStore_upsert_self] at hrec
    cases hrec
    refine ⟨rfl, ?_⟩
    intro f hf
    rcases List.mem_map.1 hf with ⟨g, _, rfl⟩
    rfl
  · rw [saveLibrary_primary now lib s hp, lookupStore_upsert_self]

/-- C1, witness: the amended statement applied to `libA` on the empty
healthy store, with the read-back of the just-written enhanced backup
showing the null handle and the reconnection marking. -/
theorem c1_backup_strip_witness :
    s0.lsFails = false ∧ s0.primaryFails = false ∧
    lookupStore ((saveLibrary "t1" libA s0).1).primary libA.id
      = some (enhanceLibrary "t1" libA) ∧
    (getEnhancedBackupLibraries "t2" (saveLibrary "t1" libA s0).1).map
      Library.directoryHandle = [none] ∧
    (getEnhancedBackupLibraries "t2" (saveLibrary "t1" libA s0).1).map
      Library.mNeedsReconnection = [some true] :=
  ⟨rfl, rfl, (c1_backup_strip_primary_no_strip "t1" libA s0 rfl rfl).2.2.2.2.1,
   by decide, by decide⟩

/-- C2, counterexample: the first save stores `description = "keep"`; a
second save of the same id whose input omits the field leaves the stored
record without it — the save replaces the stored record instead of
merging with it, so a metadata field set by an earlier write is removed
by a later write that does not mention it. -/
theorem c2_second_save_drops_field :
    (lookupStore ((saveLibrary "t1" libFirst s0).1).primary "L").bind Library.mDescription
      = some "keep" ∧
    (lookupStore ((saveLibrary "t2" libSecond ((saveLibrary "t1" libFirst s0).1)).1).primary
      "L").bind Library.mDescription = none :=
  ⟨by decide, by decide⟩

/-- C2, amended: the save merges metadata non-destructively only with the
in-memory library passed to it — top-level fields the caller still
carries (such as `description`) survive — but the stored record is then
replaced wholesale by id: after two saves the stored record is exactly
the enhancement of the second input, independent of the first, and the
`metadata.persistence` sub-record is rebuilt from scratch, carrying over
only `saveCount`. -/
theorem c2_save_replaces_record (now1 now2 : String) (lib1 lib2 : Library) (s : Store)
    (hp : s.primaryFails = false) (hid : lib2.id = lib1.id) :
    lookupStore ((saveLibrary now2 lib2 ((saveLibrary now1 lib1 s).1)).1).primary lib1.id
      = some (enhanceLibrary now2 lib2) ∧
    (enhanceLibrary now2 lib2).mDescription = lib2.mDescription ∧
    (enhanceLibrary now2 lib2).mPersistence = some
      { lastSaved := some now2
        saveCount := some (((lib2.metadata.bind (·.persistence)).bind (·.saveCount)).getD 0 + 1)
        backupCreated := some true
        localStorageBackup := some true
        indexedDBBackup := some true } := by
  refine ⟨?_, enhanceLibrary_mDescription now2 lib2, enhanceLibrary_mPersistence now2 lib2⟩
  have hp1 : ((saveLibrary now1 lib1 s).1).primaryFails = false := by
    rw [saveLibrary_primaryFails]; exact hp
  rw [saveLibrary_primary now2 lib2 _ hp1, ← hid, lookupStore_upsert_self]

/-- C2, witness: the amended statement applied to the two concrete saves
of the counterexample scenario. -/
theorem c2_save_replaces_witness :
    s0.primaryFails = false ∧ libSecond.id = libFirst.id ∧
    lookupStore ((saveLibrary "t2" libSecond ((saveLibrary "t1" libFirst s0).1)).1).primary
      libFirst.id = some (enhanceLibrary "t2" libSecond) :=
  ⟨rfl, rfl, (c2_save_replaces_record "t1" "t2" libFirst libSecond s0 rfl rfl).1⟩

/-- C3: for a library with a stored handle-metadata entry, if the silent
verification (elevate = false) is not granted, or it is granted but the
re-enumeration returns zero entries, the reconciled output carries
`metadata.needsReconnection = true` with its `files` sequence exactly the
stored one, and no permission prompt is issued; the environment's
directory contents are universally quantified, so a denied verification
gates enumeration entirely. -/
theorem c3_denied_or_empty_needs_reconnection (env : Env) (ses : Session) (lib : Library)
    (hd : DirHandle)
    (hhd : lib.directoryHandle = some hd)
    (hstored : (lookupStore ses.enhancedHandles lib.id).isSome = true ∨
      (lookupStore ses.legacyHandles lib.id).isSome = true)
    (hfail : (verifyPermission env ses hd false).1 = false ∨
      ((verifyPermission env ses hd false).1 = true ∧
        scanDirectory (env.contents hd.rid) = [])) :
    optNeedsRec (restoreLibraryHandles env ses lib).1 = some true ∧
    optFiles (restoreLibraryHandles env ses lib).1 = some lib.files ∧
    (restoreLibraryHandles env ses lib).2.2 = false :=
  restore_fail_marks env ses lib hd hhd hstored hfail

/-- C3, witness: a denied host at the concrete library `libA`. -/
theorem c3_denied_witness :
    libA.directoryHandle = some hdlA ∧
    (lookupStore sesA.enhancedHandles libA.id).isSome = true ∧
    (verifyPermission envDenied sesA hdlA false).1 = false ∧
    optNeedsRec (restoreLibraryHandles envDenied sesA libA).1 = some true ∧
    optFiles (restoreLibraryHandles envDenied sesA libA).1 = some libA.files ∧
    (restoreLibraryHandles envDenied sesA libA).2.2 = false := by
  have h := c3_denied_or_empty_needs_reconnection envDenied sesA libA hdlA rfl
    (Or.inl (by decide)) (Or.inl (by decide))
  exact ⟨rfl, by decide, by decide, h.1, h.2.1, h.2.2⟩

/-- C4, counterexample: at a host where the permission query throws, the
library does not enter the Errored state: the thrown error is caught
inside `verifyPermission` (which returns denied), so the reconciled
output has `needsReconnection = true` and no `hasErrors` annotation —
contradicting the claim that an unexpected failure during verification
yields the Errored state with `hasErrors` set. -/
theorem c4_verify_throw_not_errored :
    envThrows.queryPerm hdlA.name false = QueryRes.errors ∧
    optNeedsRec (restoreLibraryHandles envThrows sesA libA).1 = some true ∧
    optHasErrors (restoreLibraryHandles envThrows sesA libA).1 = none ∧
    optFiles (restoreLibraryHandles envThrows sesA libA).1 = some libA.files :=
  ⟨rfl, by decide, by decide, by decide⟩

/-- C4, amended: unexpected thrown failures during verification are
swallowed inside `verifyPermission` (returning denied), so the library
transitions to NeedsReconnection — files unchanged, `hasErrors`
untouched, no prompt — never to Errored. Thrown failures during
enumeration are swallowed inside `scanDirectory`, which returns the
partially accumulated list: when that partial list is empty the library
transitions to NeedsReconnection with files unchanged, and when it is
non-empty the library is Restored with the partial list as its replaced
files (`needsReconnection` cleared) — in neither case Errored, and
`hasErrors` is untouched either way. The per-library load step never sets
`hasErrors`: the Errored branch of `App.loadLibraries` fires only if the
restore or re-save call itself rejects, which these failures never
cause. -/
theorem c4_swallowed_failures_need_reconnection (env : Env) (ses : Session) (lib : Library)
    (hd : DirHandle)
    (hhd : lib.directoryHandle = some hd)
    (hstored : (lookupStore ses.enhancedHandles lib.id).isSome = true ∨
      (lookupStore ses.legacyHandles lib.id).isSome = true)
    (hmiss : lookupStore ses.cache (cacheKey hd false) = none)
    (hthrow : env.queryPerm hd.name false = QueryRes.errors) :
    (verifyPermission env ses hd false).1 = false ∧
    optNeedsRec (restoreLibraryHandles env ses lib).1 = some true ∧
    optHasErrors (restoreLibraryHandles env ses lib).1 = lib.mHasErrors ∧
    optFiles (restoreLibraryHandles env ses lib).1 = some lib.files ∧
    (restoreLibraryHandles env ses lib).2.2 = false ∧
    (∀ (env2 : Env) (ses2 : Session) (lib2 : Library) (hd2 : DirHandle) (k : Nat),
      lib2.directoryHandle = some hd2 →
      (lookupStore ses2.enhancedHandles lib2.id).isSome = true →
      (verifyPermission env2 ses2 hd2 false).1 = true →
      (env2.contents hd2.rid).failAfter = some k →
      (scanDirectory (env2.contents hd2.rid)
          = ((env2.contents hd2.rid).entries.take k).filterMap processEntry) ∧
      (scanDirectory (env2.contents hd2.rid) = [] →
        optNeedsRec (restoreLibraryHandles env2 ses2 lib2).1 = some true ∧
        optFiles (restoreLibraryHandles env2 ses2 lib2).1 = some lib2.files ∧
        optHasErrors (restoreLibraryHandles env2 ses2 lib2).1 = lib2.mHasErrors) ∧
      (scanDirectory (env2.contents hd2.rid) ≠ [] →
        optNeedsRec (restoreLibraryHandles env2 ses2 lib2).1 = some false ∧
        optFiles (restoreLibraryHandles env2 ses2 lib2).1
          = some (scanDirectory (env2.contents hd2.rid)) ∧
        optHasErrors (restoreLibraryHandles env2 ses2 lib2).1 = lib2.mHasErrors)) ∧
    (∀ st lib2, ((reconcileOne env ses st lib2).1).mHasErrors = lib2.mHasErrors) := by
  have hvf : (verifyPermission env ses hd false).1 = false := by
    simp [verifyPermission, hmiss, hthrow]
  have hmarks := restore_fail_marks env ses lib hd hhd hstored (Or.inl hvf)
  refine ⟨hvf, hmarks.1,
    restore_fail_hasErrors env ses lib hd hhd hstored (Or.inl hvf),
    hmarks.2.1, hmarks.2.2, ?_,
    fun st lib2 => reconcileOne_mHasErrors env ses st lib2⟩
  intro env2 ses2 lib2 hd2 k hhd2 hstored2 hok2 hfa2
  refine ⟨by simp [scanDirectory, hfa2], ?_, ?_⟩
  · intro hempty
    have hm := restore_fail_marks env2 ses2 lib2 hd2 hhd2 (Or.inl hstored2)
      (Or.inr ⟨hok2, hempty⟩)
    exact ⟨hm.1, hm.2.1,
      restore_fail_hasErrors env2 ses2 lib2 hd2 hhd2 (Or.inl hstored2)
        (Or.inr ⟨hok2, hempty⟩)⟩
  · intro hne
    exact restore_restored env2 ses2 lib2 hd2 hhd2 hstored2 hok2 hne

/-- C4, witness: the throwing verification host, and the enumeration
conjunct at a directory whose iterator throws after one readable PDF —
the library comes back Restored with the partial list, not Errored. -/
theorem c4_swallowed_failures_witness :
    libA.directoryHandle = some hdlA ∧
    lookupStore sesA.cache (cacheKey hdlA false) = none ∧
    envThrows.queryPerm hdlA.name false = QueryRes.errors ∧
    optNeedsRec (restoreLibraryHandles envThrows sesA libA).1 = some true ∧
    (envPartial.contents hdlA.rid).failAfter = some 1 ∧
    optNeedsRec (restoreLibraryHandles envPartial sesA libA).1 = some false ∧
    optFiles (restoreLibraryHandles envPartial sesA libA).1
      = some (scanDirectory dirPartial) := by
  have h := c4_swallowed_failures_need_reconnection envThrows sesA libA hdlA rfl
    (Or.inl (by decide)) (by decide) rfl
  have h2 := h.2.2.2.2.2.1 envPartial sesA libA hdlA 1 rfl (by decide) (by decide) rfl
  have h3 := h2.2.2 (by decide)
  exact ⟨rfl, by decide, rfl, h.2.1, rfl, h3.1, h3.2.1⟩

/-- C5, counterexample: on a store whose IndexedDB put fails, the primary
write does not happen (the primary contents stay empty) and yet
`saveLibrary` resolves with ok — so put does not resolve if and only if
the Primary Store write succeeds. -/
theorem c5_put_resolves_despite_primary_failure :
    ({ s0 with primaryFails := true } : Store).primaryFails = true ∧
    (saveLibrary "t1" libA { s0 with primaryFails := true }).2 = Except.ok () ∧
    (saveLibrary "t1" libA { s0 with primaryFails := true }).1.primary = [] :=
  ⟨rfl, rfl, by decide⟩

/-- C5, amended: `saveLibrary` resolves unconditionally. A Shadow Backup
Store failure indeed never fails put (only the backup namespaces are left
unchanged), but a Primary Store write failure is also caught and only
logged: put still resolves and the primary contents are left unchanged —
put does not report the Primary Store outcome to its caller. -/
theorem c5_put_always_resolves (now : String) (lib : Library) (s : Store) :
    (saveLibrary now lib s).2 = Except.ok () ∧
    (saveLibrary now lib { s with primaryFails := true }).1.primary = s.primary ∧
    (saveLibrary now lib { s with primaryFails := true }).2 = Except.ok () ∧
    (saveLibrary now lib { s with lsFails := true }).1.enhancedBackup = s.enhancedBackup ∧
    (saveLibrary now lib { s with lsFails := true }).1.legacyBackup = s.legacyBackup ∧
    (saveLibrary now lib { s with lsFails := true }).2 = Except.ok () := by
  refine ⟨rfl, ?_, rfl, ?_, ?_, rfl⟩
  · exact saveLibrary_primary_failed now lib _ rfl
  · exact saveLibrary_enhanced_lsFailed now lib _ rfl
  · exact saveLibrary_legacy_lsFailed now lib _ rfl

/-- C6, counterexample: on a store whose primary read succeeds but holds
zero records, the Shadow Backup Store is read anyway and its record is
returned — the backup is not read only when the Primary Store is
unavailable. -/
theorem c6_backup_read_after_empty_primary :
    sBk.primaryFails = false ∧ sBk.primary = [] ∧
    ReadEv.enhancedRead ∈ (getLibrariesT "t3" sBk).2 ∧
    (getLibraries "t3" sBk).map Library.id = ["A"] :=
  ⟨rfl, rfl, by decide, by decide⟩

/-- C6, amended: the Shadow Backup Store is read exactly when the Primary
Store read fails or succeeds with zero records; and when every storage
layer fails the load still returns the empty sequence rather than
throwing. -/
theorem c6_backup_read_iff (now : String) (s : Store) :
    (ReadEv.enhancedRead ∈ (getLibrariesT now s).2 ↔
      (s.primaryFails = true ∨ s.primary = [])) ∧
    getLibraries now { s with primaryFails := true, lsFails := true } = [] := by
  refine ⟨enhancedRead_mem_iff now s, ?_⟩
  simp [getLibraries, getLibrariesT, backupRead, getEnhancedBackupLibraries,
    getBackupLibraries]

/-- C7, counterexample: with the primary failing, a library present only
in the legacy namespace (`B`) is not returned when another library exists
in the enhanced namespace — the read returns only `A`. -/
theorem c7_legacy_only_library_dropped :
    sBkF.primaryFails = true ∧
    lookupStore sBkF.enhancedBackup "B" = none ∧
    lookupStore sBkF.legacyBackup "B" = some libBkB ∧
    (getLibraries "t3" sBkF).map Library.id = ["A"] :=
  ⟨rfl, by decide, by decide, by decide⟩

/-- C7, amended: the fallback between the two backup namespaces is per
store, not per id: whenever the enhanced namespace yields any entry, the
read returns exactly the enhanced entries, the legacy namespace is never
consulted, and any id absent from the enhanced entries is absent from
the result. -/
theorem c7_whole_store_fallback (now : String) (s : Store) (idX : String)
    (hf : s.primaryFails = true)
    (hne : getEnhancedBackupLibraries now s ≠ []) :
    getLibraries now s = getEnhancedBackupLibraries now s ∧
    ReadEv.legacyRead ∉ (getLibrariesT now s).2 ∧
    (idX ∉ (getEnhancedBackupLibraries now s).map Library.id →
      idX ∉ (getLibraries now s).map Library.id) := by
  have hlen : 0 < (getEnhancedBackupLibraries now s).length := List.length_pos.mpr hne
  have h1 : getLibrariesT now s =
      (getEnhancedBackupLibraries now s, [ReadEv.primaryRead, ReadEv.enhancedRead]) := by
    simp [getLibrariesT, hf, backupRead, hlen]
  refine ⟨by simp [getLibraries, h1], by simp [h1], ?_⟩
  intro hnot
  simpa [getLibraries, h1] using hnot

/-- C7, witness: the amended statement at the concrete two-namespace
store of the counterexample. -/
theorem c7_whole_store_witness :
    sBkF.primaryFails = true ∧
    getEnhancedBackupLibraries "t3" sBkF ≠ [] ∧
    getLibraries "t3" sBkF = getEnhancedBackupLibraries "t3" sBkF :=
  ⟨rfl, by decide, (c7_whole_store_fallback "t3" sBkF "B" rfl (by decide)).1⟩

/-- C8: when the user picks a directory whose scan yields zero PDFs,
creation fails with the validation error and persists nothing — the
handle-metadata namespaces and the store are unchanged — and a
user-initiated reconnect fails the same way while the store and the
in-memory library list (hence the NeedsReconnection record itself) are
left untouched. -/
theorem c8_zero_pdf_validation_rejected (env : Env) (ses : Session) (s : Store)
    (libs : List Library) (lib : Library) (hd : DirHandle)
    (hpick : env.picker = PickerRes.picked hd)
    (hperm : (verifyPermission env ses hd true).1 = true)
    (hempty : scanDirectory (env.contents hd.rid) = []) :
    (createLibraryFromDirectory env ses).1 = Except.error CreateErr.noPdfFiles ∧
    (createLibraryFromDirectory env ses).2.enhancedHandles = ses.enhancedHandles ∧
    (createLibraryFromDirectory env ses).2.legacyHandles = ses.legacyHandles ∧
    (handleAddLibrary env ses s).2.1 = s ∧
    (reconnectLibrary env ses lib).1 = Except.error CreateErr.noPdfFiles ∧
    (handleReconnectLibrary env ses s libs lib).2.1 = s ∧
    (handleReconnectLibrary env ses s libs lib).2.2 = libs := by
  rcases hv : verifyPermission env ses hd true with ⟨b, ses2, p⟩
  have hb : b = true := by rw [hv] at hperm; exact hperm
  subst hb
  have hh := verifyPermission_handles env ses hd true
  rw [hv] at hh
  have hcreate : createLibraryFromDirectory env ses
      = (Except.error CreateErr.noPdfFiles, ses2) := by
    simp [createLibraryFromDirectory, hpick, hv, hempty]
  have hrec : reconnectLibrary env ses lib
      = (Except.error CreateErr.noPdfFiles, ses2) := by
    simp [reconnectLibrary, hpick, hv, hempty]
  refine ⟨by rw [hcreate], ?_, ?_, ?_, by rw [hrec], ?_, ?_⟩
  · rw [hcreate]; exact hh.1
  · rw [hcreate]; exact hh.2
  · simp [handleAddLibrary, hcreate]
  · simp [handleReconnectLibrary, hrec]
  · simp [handleReconnectLibrary, hrec]

/-- C8, witness: a picked directory containing one non-PDF entry. -/
theorem c8_zero_pdf_witness :
    envEmptyDir.picker = PickerRes.picked { rid := 3, name := "Empty" } ∧
    (verifyPermission envEmptyDir ses0 { rid := 3, name := "Empty" } true).1 = true ∧
    scanDirectory (envEmptyDir.contents 3) = [] ∧
    (createLibraryFromDirectory envEmptyDir ses0).1 = Except.error CreateErr.noPdfFiles ∧
    (reconnectLibrary envEmptyDir ses0 libNeedsRec).1 = Except.error CreateErr.noPdfFiles ∧
    (handleReconnectLibrary envEmptyDir ses0 s0 [libNeedsRec] libNeedsRec).2.2
      = [libNeedsRec] := by
  have h := c8_zero_pdf_validation_rejected envEmptyDir ses0 s0 [libNeedsRec] libNeedsRec
    { rid := 3, name := "Empty" } rfl (by decide) (by decide)
  exact ⟨rfl, by decide, by decide, h.1, h.2.2.2.2.1, h.2.2.2.2.2.2⟩

/-- C9: a full enumeration returns exactly the immediate children that
are regular files with a case-insensitive `.pdf` name and a succeeding
per-entry read (failing reads are excluded without failing the scan); on
the concrete scenario directory holding `a.pdf`, `b.pdf` and one
unreadable entry, the scan yields exactly those two names and the created
library has `metadata.fileCount = 2`. -/
theorem c9_scan_filter_and_scenario (d : DirContents) (hfa : d.failAfter = none)
    (lf : LibFile) :
    (lf ∈ scanDirectory d ↔
      ∃ e ∈ d.entries, e.kind = EntryKind.file ∧ isPdfName e.name = true ∧
        ∃ sz lm, e.read = some (sz, lm) ∧
          lf = { name := e.name, handle := some e.hid, size := some sz,
                 lastModified := some lm }) ∧
    (scanDirectory dirC9).map LibFile.name = ["a.pdf", "b.pdf"] ∧
    ((createLibraryFromDirectory envC9 ses0).1.map (fun o => o.bind Library.mFileCount))
      = Except.ok (some 2) :=
  ⟨scanDirectory_mem d hfa lf, by decide, by decide⟩

/-- C9, witness: the characterization applied to the scenario directory
and its first scanned file. -/
theorem c9_scan_witness :
    dirC9.failAfter = none ∧
    ((⟨"a.pdf", some 11, some 100, some "ta"⟩ : LibFile) ∈ scanDirectory dirC9) ∧
    (scanDirectory dirC9).map LibFile.name = ["a.pdf", "b.pdf"] := by
  have h := c9_scan_filter_and_scenario dirC9 rfl ⟨"a.pdf", some 11, some 100, some "ta"⟩
  refine ⟨rfl, ?_, h.2.1⟩
  refine h.1.mpr ⟨⟨"a.pdf", EntryKind.file, 11, some (100, "ta")⟩, ?_, rfl, ?_, 100, "ta",
    rfl, rfl⟩
  · decide
  · decide

/-- C10: the delete removes the enhanced and legacy backup entries
unconditionally before the Primary Store delete is attempted, and a
failing Primary Store delete is swallowed: the call still resolves ok,
both backup namespaces no longer hold the id, while the Primary Store
contents are untouched; when the primary delete succeeds the id is gone
from the Primary Store too. -/
theorem c10_delete_removes_backups_swallows_primary (idX : String) (s : Store)
    (hls : s.lsFails = false) :
    (deleteLibrary idX { s with primaryFails := true }).2 = Except.ok () ∧
    lookupStore (deleteLibrary idX { s with primaryFails := true }).1.enhancedBackup idX
      = none ∧
    lookupStore (deleteLibrary idX { s with primaryFails := true }).1.legacyBackup idX
      = none ∧
    (deleteLibrary idX { s with primaryFails := true }).1.primary = s.primary ∧
    lookupStore (deleteLibrary idX { s with primaryFails := false }).1.primary idX
      = none := by
  refine ⟨rfl, ?_, ?_, ?_, ?_⟩ <;>
    simp [deleteLibrary, removeEnhancedBackupLibrary, removeBackupLibrary, hls,
      lookupStore_removeKey_self]

/-- C10, witness: deleting `X` from a store holding it in every layer
while the primary delete fails: the call resolves, the backups lose `X`,
the Primary Store still holds it. -/
theorem c10_delete_witness :
    sDel0.lsFails = false ∧
    (deleteLibrary "X" { sDel0 with primaryFails := true }).2 = Except.ok () ∧
    lookupStore (deleteLibrary "X" { sDel0 with primaryFails := true }).1.enhancedBackup "X"
      = none ∧
    lookupStore (deleteLibrary "X" { sDel0 with primaryFails := true }).1.primary "X"
      = some libBkA := by
  have h := c10_delete_removes_backups_swallows_primary "X" sDel0 rfl
  exact ⟨rfl, h.1, h.2.1, by decide⟩

end MedLib
